import Mathlib

/-!
# simulateB0production (pythia/simulateB0production.cc)

A shallow embedding of the simulation driver: the sequence of `readString`
settings it hands to the generator, the particle loop that fills the ntuple
`treeB`, the event loop with its try/catch, and the objects written to the
output file.  The Pythia generator and the ROOT file are external; the
generator is a parameter of the model.
-/

namespace B0Sim

/-! ## Generator settings (lines 28-153) -/

/-- Settings read inside the `if (tune == ...) / else if` chain, lines 30-144,
in call order.  The comparison is `std::string` equality, so it is
case-sensitive; a name matching no branch reads nothing. -/
def tuneSettings (tune : String) : List String :=
  if tune = "monash" then
    [ "ColourReconnection:mode = 0",
      "StringPT:sigma = 0.335",
      "StringZ:aLund = 0.68",
      "StringZ:bLund = 0.98",
      "StringFlav:probQQtoQ = 0.081",
      "StringFlav:ProbStoUD = 0.217",
      "StringFlav:probQQ1toQQ0join = 0.5,0.7,0.9,1.0",
      "MultiPartonInteractions:pT0Ref = 2.28",
      "BeamRemnants:remnantMode = 0" ]
  else if tune = "mode0" then
    [ "ColourReconnection:mode = 1",
      "ColourReconnection:allowDoubleJunRem = off",
      "ColourReconnection:m0 = 2.9",
      "ColourReconnection:allowJunctions = on",
      "ColourReconnection:junctionCorrection = 1.43",
      "ColourReconnection:timeDilationMode = 0",
      "StringPT:sigma = 0.335",
      "StringZ:aLund = 0.36",
      "StringZ:bLund = 0.56",
      "StringFlav:probQQtoQ = 0.078",
      "StringFlav:ProbStoUD = 0.2",
      "StringFlav:probQQ1toQQ0join = 0.0275,0.0275,0.0275,0.0275",
      "MultiPartonInteractions:pT0Ref = 2.12",
      "BeamRemnants:remnantMode = 1",
      "BeamRemnants:saturation = 5" ]
  else if tune = "mode2" then
    [ "ColourReconnection:mode = 1",
      "ColourReconnection:allowDoubleJunRem = off",
      "ColourReconnection:m0 = 0.3",
      "ColourReconnection:allowJunctions = on",
      "ColourReconnection:junctionCorrection = 1.20",
      "ColourReconnection:timeDilationMode = 2",
      "ColourReconnection:timeDilationPar = 0.18",
      "StringPT:sigma = 0.335",
      "StringZ:aLund = 0.36",
      "StringZ:bLund = 0.56",
      "StringFlav:probQQtoQ = 0.078",
      "StringFlav:ProbStoUD = 0.2",
      "StringFlav:probQQ1toQQ0join = 0.0275,0.0275,0.0275,0.0275",
      "MultiPartonInteractions:pT0Ref = 2.15",
      "BeamRemnants:remnantMode = 1",
      "BeamRemnants:saturation = 5" ]
  else if tune = "mode3" then
    [ "ColourReconnection:mode = 1",
      "ColourReconnection:allowDoubleJunRem = off",
      "ColourReconnection:m0 = 0.3",
      "ColourReconnection:allowJunctions = on",
      "ColourReconnection:junctionCorrection = 1.15",
      "ColourReconnection:timeDilationMode = 3",
      "ColourReconnection:timeDilationPar = 0.073",
      "StringPT:sigma = 0.335",
      "StringZ:aLund = 0.36",
      "StringZ:bLund = 0.56",
      "StringFlav:probQQtoQ = 0.078",
      "StringFlav:ProbStoUD = 0.2",
      "StringFlav:probQQ1toQQ0join = 0.0275,0.0275,0.0275,0.0275",
      "MultiPartonInteractions:pT0Ref = 2.05",
      "BeamRemnants:remnantMode = 1",
      "BeamRemnants:saturation = 5" ]
  else if tune = "ropes" then
    [ "MultiPartonInteractions:pT0Ref = 2.15",
      "BeamRemnants:remnantMode = 1",
      "BeamRemnants:saturation = 5",
      "ColourReconnection:mode = 1",
      "ColourReconnection:allowDoubleJunRem = off",
      "ColourReconnection:m0 = 0.3",
      "ColourReconnection:allowJunctions = on",
      "ColourReconnection:junctionCorrection = 1.2",
      "ColourReconnection:timeDilationMode = 2",
      "ColourReconnection:timeDilationPar = 0.18",
      "Ropewalk:RopeHadronization = on",
      "Ropewalk:doShoving = on",
      "Ropewalk:tInit = 1.5",
      "Ropewalk:deltat = 0.05",
      "Ropewalk:tShove 0.1",
      "Ropewalk:gAmplitude = 0.",
      "Ropewalk:doFlavour = on",
      "Ropewalk:r0 = 0.5",
      "Ropewalk:m0 = 0.2",
      "Ropewalk:beta = 0.1" ]
  else if tune = "srrc" then
    [ "ColourReconnection:mode = 1",
      "ColourReconnection:timeDilationMode = 0",
      "ColourReconnection:allowDoubleJunRem = off",
      "ColourReconnection:m0 = 1.05",
      "ColourReconnection:allowJunctions = on",
      "ColourReconnection:lambdaForm = 1",
      "ColourReconnection:mPseudo = 1.05",
      "ColourReconnection:junctionCorrection = 1.37",
      "ColourReconnection:dipoleMaxDist = 0.5",
      "StringPT:sigma = 0.335",
      "StringZ:aLund = 0.36",
      "StringZ:bLund = 0.56",
      "StringFlav:probQQtoQ = 0.078",
      "StringFlav:ProbStoUD = 0.4",
      "StringFlav:probQQ1toQQ0join = 0.5,0.7,0.9,1.0",
      "MultiPartonInteractions:pT0Ref = 2.37",
      "BeamRemnants:remnantMode = 1",
      "BeamRemnants:saturation = 5",
      "BeamRemnants:beamJunction = on",
      "ColourReconnection:heavyLambdaForm = 1",
      "StringFragmentation:pearlFragmentation = on" ]
  else
    []

/-- The string built by `Form("Random:seed = %d", seed)`, line 152: the seed in
decimal, with a leading minus sign when negative. -/
def seedSetting (seed : Int) : String :=
  "Random:seed = " ++ toString seed

/-- Settings read before the tune chain, lines 28-29. -/
def baselineHead : List String :=
  [ "SoftQCD:inelastic = on",
    "Tune:pp = 14" ]

/-- Settings read after the tune chain, lines 146-153. -/
def baselineTail (seed : Int) : List String :=
  [ "ParticleDecays:limitTau0 = on",
    "ParticleDecays:tau0Max = 10",
    "MiniStringFragmentation:tryAfterFailedFrag = on",
    "Random:setSeed = on",
    seedSetting seed,
    "Beams:eCM = 13600" ]

/-- The settings read when no tune branch is taken. -/
def baselineSettings (seed : Int) : List String :=
  baselineHead ++ baselineTail seed

/-- All arguments of `pythia.readString`, lines 28-153, in call order. -/
def readStrings (seed : Int) (tune : String) : List String :=
  baselineHead ++ tuneSettings tune ++ baselineTail seed

/-- The six names compared against in the tune chain. -/
def tuneNames : List String :=
  ["monash", "mode0", "mode2", "mode3", "ropes", "srrc"]

/-- Key of a setting string: its text before the first space or `=`. -/
def settingKey (s : String) : String :=
  String.mk (s.data.takeWhile (fun c => c != ' ' && c != '='))

/-- Modelled from the spec: the generator's `configure` is last-write-wins on
duplicate keys; the library code of `readString` is not part of the
repository.  The result is the last string of the sequence that assigns
`key`, if any. -/
def lastWrite (key : String) : List String → Option String
  | [] => none
  | s :: rest =>
    match lastWrite key rest with
    | some t => some t
    | none => if settingKey s = key then some s else none

/-! ## Particle loop (lines 175-191) -/

/-- Value of a C++ floating-point variable, `double` or `float`: a number, an
infinity or NaN.  Signed zeros are not told apart. -/
inductive FloatVal where
  | num (q : ℚ)
  | inf (negative : Bool)
  | nan
  deriving DecidableEq

namespace FloatVal

/-- The function `std::abs` on a floating-point value. -/
def abs : FloatVal → FloatVal
  | num q => num |q|
  | inf _ => inf false
  | nan => nan

/-- The comparison `a > b`; false whenever an operand is NaN. -/
def gt : FloatVal → FloatVal → Bool
  | num a, num b => decide (b < a)
  | inf false, num _ => true
  | inf false, inf true => true
  | num _, inf true => true
  | _, _ => false

end FloatVal

/-- Nearest integer, ties to the even one. -/
def roundHalfEven (x : ℚ) : ℤ :=
  let f := ⌊x⌋
  let r := x - f
  if r < 1 / 2 then f
  else if 1 / 2 < r then f + 1
  else if f % 2 = 0 then f else f + 1

/-- The conversion of a `double` to `float` made by the initialisations of
lines 183 and 188, as IEEE 754 binary32 with rounding to nearest, ties to
even: the magnitude is rounded to a multiple of `2 ^ (e - 23)`, where `e` is
the binary exponent of the value and at least -126, and a rounded magnitude
of `2 ^ 128` or more gives an infinity.  NaN and the infinities are kept. -/
def toFloat : FloatVal → FloatVal
  | FloatVal.nan => FloatVal.nan
  | FloatVal.inf s => FloatVal.inf s
  | FloatVal.num q =>
    if q = 0 then FloatVal.num 0
    else
      let e := max (Int.log 2 |q|) (-126)
      let quantum : ℚ := 2 ^ (e - 23)
      let m : ℚ := roundHalfEven (|q| / quantum) * quantum
      if 2 ^ 128 ≤ m then FloatVal.inf (decide (q < 0))
      else FloatVal.num (if q < 0 then -m else m)

/-- What the particle loop reads of an entry of `pythia.event`: the `int`
returned by `id()` and the `double` values returned by `y()` and `pT()`. -/
structure Particle where
  id : Int
  y : FloatVal
  pT : FloatVal
  deriving DecidableEq

/-- The event record `pythia.event`, entries in index order from 0. -/
abbrev Event := List Particle

/-- One row of the ntuple `treeB`, columns `ptB:yB:pdgB` (line 157).  The
columns `ptB` and `yB` hold `float` values.  The column `pdgB` holds the `int`
passed to `Fill`; the codes that reach `Fill` are exact as `float`. -/
structure Row where
  ptB : FloatVal
  yB : FloatVal
  pdgB : Int
  deriving DecidableEq

/-- Body of the particle loop for one entry, lines 177-190: the ntuple after
the iteration.  Each `continue` leaves the ntuple as it was.  For the `int`
codes the value of `std::abs(pdg)` is `pdg.natAbs`.  The locals `y` and `pt`
are `float`: `float y = pythia.event[iPart].y();` converts the `double`, and
the cut and `Fill` see the converted values. -/
def fillStep (ntupleB : List Row) (part : Particle) : List Row :=
  let pdg := part.id
  let absPdg := pdg.natAbs
  if absPdg ≠ 511 ∧ absPdg ≠ 521 ∧ absPdg ≠ 531 then
    ntupleB
  else
    let y := toFloat part.y
    if (FloatVal.abs y).gt (FloatVal.num 1) then
      ntupleB
    else
      let pt := toFloat part.pT
      ntupleB ++ [{ ptB := pt, yB := y, pdgB := pdg }]

/-- The particle loop `for (auto iPart{2}; iPart < pythia.event.size(); ++iPart)`,
lines 175-191: the body runs on the entries from index 2 on, in order. -/
def fillTree (event : Event) (ntupleB : List Row) : List Row :=
  (event.drop 2).foldl fillStep ntupleB

/-! ## Event loop (lines 164-204) -/

/-- Outcome of the call `pythia.init()` of line 154.  `raised`: the call raises
and does not return.  `returned ok state`: the call returns `ok`, the `bool` of
`Pythia::init`, which is `false` when the generator could not be initialised,
and leaves the generator in `state`. -/
inductive InitResult (σ : Type) where
  | raised
  | returned (ok : Bool) (state : σ)

/-- Outcome of the call `pythia.next()` of line 172.  `raised`: the call raises
`std::exception`.  `returned ok event`: the call returns `ok`, the `bool` of
`Pythia::next`, which is `false` when the generation of the event failed, and
leaves `event` in the event record `pythia.event`. -/
inductive NextResult where
  | raised
  | returned (ok : Bool) (event : Event)
  deriving DecidableEq

/-- The call raised. -/
def InitResult.isRaised {σ : Type} : InitResult σ → Bool
  | InitResult.raised => true
  | InitResult.returned _ _ => false

/-- Initialisation failed: the call raised, or it returned `false`. -/
def InitResult.failed {σ : Type} : InitResult σ → Bool
  | InitResult.raised => true
  | InitResult.returned ok _ => !ok

/-- The call raised. -/
def NextResult.isRaised : NextResult → Bool
  | NextResult.raised => true
  | NextResult.returned _ _ => false

/-- The generation of the event failed: the call raised, or it returned
`false`. -/
def NextResult.failed : NextResult → Bool
  | NextResult.raised => true
  | NextResult.returned ok _ => !ok

/-- The Pythia generator, library code outside the repository, as the driver
uses it.
* `init settings`: the call `pythia.init()` on a generator that has read
  `settings`.
* `next s`: the call `pythia.next()` in generator state `s`; the state
  advances whatever the outcome.
* `nAccepted`, `sigmaGen`: the queries of lines 207-208. -/
structure Generator (σ : Type) where
  init : List String → InitResult σ
  next : σ → σ × NextResult
  nAccepted : σ → Int
  sigmaGen : σ → FloatVal

/-- Variables of the event loop. -/
structure LoopState (σ : Type) where
  pythia : σ
  ntupleB : List Row
  nNonFailedEvents : Nat
  nextCalls : Nat
  cerrLines : Nat
  progress : List Nat

/-- State at line 164, before the first iteration. -/
def LoopState.start {σ : Type} (s : σ) : LoopState σ :=
  { pythia := s, ntupleB := [], nNonFailedEvents := 0, nextCalls := 0,
    cerrLines := 0, progress := [] }

/-- The try/catch of lines 170-197.  The value `next()` returns is discarded
(line 172 is the expression statement `pythia.next();`), so a call that
returns is followed by the particle loop and the increment.  When `next()`
raises, control goes to the handler: the particle loop and the increment are
skipped and one message goes to `cerr`. -/
def tryEvent {σ : Type} (gen : Generator σ) (st : LoopState σ) : LoopState σ :=
  match gen.next st.pythia with
  | (s, NextResult.returned _ event) =>
    { st with
      pythia := s
      nextCalls := st.nextCalls + 1
      ntupleB := fillTree event st.ntupleB
      nNonFailedEvents := st.nNonFailedEvents + 1 }
  | (s, NextResult.raised) =>
    { st with
      pythia := s
      nextCalls := st.nextCalls + 1
      cerrLines := st.cerrLines + 1 }

/-- One iteration of the event loop, lines 169-203: the try/catch, then the
progress line every 100000 iterations. -/
def eventIteration {σ : Type} (gen : Generator σ) (iEvent : Nat)
    (st : LoopState σ) : LoopState σ :=
  let st1 := tryEvent gen st
  if iEvent % 100000 = 0 then
    { st1 with progress := st1.progress ++ [iEvent + 1] }
  else
    st1

/-- State after the first `n` iterations (`iEvent = 0, ..., n - 1`) of the
event loop. -/
def eventLoop {σ : Type} (gen : Generator σ) : Nat → LoopState σ → LoopState σ
  | 0, st => st
  | n + 1, st => eventIteration gen n (eventLoop gen n st)

/-! ## The run (lines 16-216) -/

/-- The output file of line 156, taken to be writable: its name, the objects
written to it so far and whether it has been closed. -/
structure OutFile where
  name : String
  treeB : Option (List Row)
  hEvents : Option Nat
  hAcceptedEvents : Option Int
  hSigmaGen : Option FloatVal
  closed : Bool
  deriving DecidableEq

/-- Effects of a run that are visible from outside. -/
structure Run where
  readStrings : List String
  nextCalls : Nat
  cerrLines : Nat
  progress : List Nat
  outFile : Option OutFile
  returned : Bool
  deriving DecidableEq

/-- The function `simulateB0production`.  Line 154 is the expression statement
`pythia.init();` outside any try block: when the call raises the function is
left at once, and when it returns the value is discarded and the run goes on.
The loop `for (auto iEvent{0}; iEvent < nEvents; ++iEvent)` makes
`nEvents.toNat` iterations (none for `nEvents ≤ 0`).  The bin contents are
given as the values passed to `SetBinContent`. -/
def simulateB0production {σ : Type} (pythia : Generator σ) (nEvents : Int)
    (seed : Int) (tune : String) (outFileName : String) : Run :=
  let settings := readStrings seed tune
  match pythia.init settings with
  | InitResult.raised =>
    { readStrings := settings, nextCalls := 0, cerrLines := 0, progress := [],
      outFile := none, returned := false }
  | InitResult.returned _ s0 =>
    let st := eventLoop pythia nEvents.toNat (LoopState.start s0)
    { readStrings := settings
      nextCalls := st.nextCalls
      cerrLines := st.cerrLines
      progress := st.progress
      outFile := some
        { name := outFileName
          treeB := some st.ntupleB
          hEvents := some st.nNonFailedEvents
          hAcceptedEvents := some (pythia.nAccepted st.pythia)
          hSigmaGen := some (pythia.sigmaGen st.pythia)
          closed := true }
      returned := true }

/-! ## A scripted generator, for evaluating the model on concrete runs -/

/-- A generator that replays a fixed list of outcomes of `next()` and reports
failure once the list is used up; `start` is what `init()` does: `none` to
raise, `some ok` to return `ok`.  The state is the list of outcomes still to
come and the count of events returned with `true`. -/
def scripted (start : Option Bool) (outcomes : List NextResult) :
    Generator (List NextResult × Int) where
  init _ :=
    match start with
    | none => InitResult.raised
    | some ok => InitResult.returned ok (outcomes, 0)
  next s :=
    match s.1 with
    | [] => (([], s.2), NextResult.returned false [])
    | NextResult.raised :: rest => ((rest, s.2), NextResult.raised)
    | NextResult.returned ok e :: rest =>
      ((rest, if ok then s.2 + 1 else s.2), NextResult.returned ok e)
  nAccepted s := s.2
  sigmaGen _ := FloatVal.num 0

/-- The variables of the event loop other than the generator. -/
def LoopState.counters {σ : Type} (st : LoopState σ) :
    List Row × Nat × Nat × Nat × List Nat :=
  (st.ntupleB, st.nNonFailedEvents, st.nextCalls, st.cerrLines, st.progress)

/-- A run with its output file, if it has one, given the name `name`. -/
def Run.renamed (name : String) (run : Run) : Run :=
  { run with outFile := run.outFile.map (fun f => { f with name := name }) }

/-- Two generator objects whose event stream is the same function of the
settings they are given: on equal settings `init()` raises in both or returns
in both, leaving states related by `R`, and in related states `next()` has
the same outcome and leaves related states, and the two queries agree. -/
structure SameStream {σ τ : Type} (first : Generator σ) (second : Generator τ)
    (R : σ → τ → Prop) : Prop where
  init : ∀ settings : List String,
    (first.init settings = InitResult.raised ∧ second.init settings = InitResult.raised) ∨
      ∃ ok1 ok2 s t, first.init settings = InitResult.returned ok1 s ∧
        second.init settings = InitResult.returned ok2 t ∧ R s t
  next : ∀ s t, R s t →
    (first.next s).2 = (second.next t).2 ∧ R (first.next s).1 (second.next t).1
  nAccepted : ∀ s t, R s t → first.nAccepted s = second.nAccepted t
  sigmaGen : ∀ s t, R s t → first.sigmaGen s = second.sigmaGen t

/-- The call returned `true`. -/
def NextResult.accepted : NextResult → Bool
  | NextResult.returned true _ => true
  | _ => false

/-- Number of calls that returned `true` in a list of outcomes. -/
def acceptedCount (outcomes : List NextResult) : Int :=
  ((outcomes.filter NextResult.accepted).length : Int)

/-- A second implementation of the scripted generator, whose state is the
number of calls of `next()` made so far. -/
def replay (start : Option Bool) (outcomes : List NextResult) : Generator Nat where
  init _ :=
    match start with
    | none => InitResult.raised
    | some ok => InitResult.returned ok 0
  next i := (i + 1, outcomes.getD i (NextResult.returned false []))
  nAccepted i := acceptedCount (outcomes.take i)
  sigmaGen _ := FloatVal.num 0

/-- The states of `scripted` and `replay` after the same number of calls. -/
def replayRel (outcomes : List NextResult) (s : List NextResult × Int) (i : Nat) : Prop :=
  s = (outcomes.drop i, acceptedCount (outcomes.take i))

/-! ## The filter in the words of the specification -/

/-- The type code has absolute value 511, 521 or 531. -/
def isBCode (pdg : Int) : Bool :=
  decide (|pdg| = 511 ∨ |pdg| = 521 ∨ |pdg| = 531)

/-- The magnitude is at most 1.0: the value is a number `q` with `|q| ≤ 1`. -/
def withinUnit : FloatVal → Bool
  | FloatVal.num q => decide (|q| ≤ 1)
  | _ => false

/-- The magnitude is not above 1.0: at most 1.0, or not a number. -/
def notAboveUnit : FloatVal → Bool
  | FloatVal.num q => decide (|q| ≤ 1)
  | FloatVal.nan => true
  | FloatVal.inf _ => false

/-- The rapidities the cut lets through: not a number, or of magnitude at most
`1 + 2⁻²⁴`, the midpoint between 1 and the next `float`. -/
def rapidityKept : FloatVal → Bool
  | FloatVal.num q => decide (|q| ≤ 1 + 1 / 2 ^ 24)
  | FloatVal.nan => true
  | FloatVal.inf _ => false

/-- The triple (transverse momentum, rapidity, type code) of an entry. -/
def tripleOf (part : Particle) : Row :=
  { ptB := part.pT, yB := part.y, pdgB := part.id }

/-- The triple of an entry with the transverse momentum and the rapidity
converted to `float`. -/
def rowOf (part : Particle) : Row :=
  { ptB := toFloat part.pT, yB := toFloat part.y, pdgB := part.id }

/-- The rows of an event as the specification describes them: the rows `row`
of the entries at index 2 or higher whose type code is a B code and whose
rapidity satisfies `cut`, in event order. -/
def selectedRows (cut : FloatVal → Bool) (row : Particle → Row) (event : Event) : List Row :=
  (event.enum.filter
    (fun ip => decide (2 ≤ ip.1) && isBCode ip.2.id && cut ip.2.y)).map
    (fun ip => row ip.2)

/-! ## Attempts of a run -/

/-- Outcome of the call of `next()` made in iteration `j` of the event loop,
for a generator left in state `s0` by `init()`. -/
def attempt {σ : Type} (gen : Generator σ) (s0 : σ) (j : Nat) : NextResult :=
  (gen.next (eventLoop gen j (LoopState.start s0)).pythia).2

/-- The attempt of iteration `j` fails: `next()` raises or returns `false`. -/
def attemptFails {σ : Type} (gen : Generator σ) (s0 : σ) (j : Nat) : Bool :=
  (attempt gen s0 j).failed

/-- The attempt of iteration `j` raises. -/
def attemptRaises {σ : Type} (gen : Generator σ) (s0 : σ) (j : Nat) : Bool :=
  (attempt gen s0 j).isRaised

/-- Number of attempts that raise among the first `n` iterations. -/
def raisedAttempts {σ : Type} (gen : Generator σ) (s0 : σ) (n : Nat) : Nat :=
  ((List.range n).filter (attemptRaises gen s0)).length

/-! ## Concrete events and runs -/

/-- An event with one central B0, one B_s outside the rapidity window and one
pion, after the system entry and the two beams. -/
def sampleEvent : Event :=
  [ { id := 90, y := FloatVal.num 0, pT := FloatVal.num 0 },
    { id := 2212, y := FloatVal.inf false, pT := FloatVal.num 0 },
    { id := 2212, y := FloatVal.inf true, pT := FloatVal.num 0 },
    { id := 511, y := FloatVal.num 0, pT := FloatVal.num 5 },
    { id := -531, y := FloatVal.num 2, pT := FloatVal.num 1 },
    { id := 211, y := FloatVal.num 0, pT := FloatVal.num 1 } ]

/-- An event whose only B meson has a rapidity that is not a number. -/
def nanEvent : Event :=
  [ { id := 90, y := FloatVal.num 0, pT := FloatVal.num 0 },
    { id := 2212, y := FloatVal.inf false, pT := FloatVal.num 0 },
    { id := 511, y := FloatVal.nan, pT := FloatVal.num 5 } ]

/-- An event whose only B meson has rapidity 1.00000001, above 1.0 and nearer
to 1.0 than to the next `float`. -/
def roundedEvent : Event :=
  [ { id := 90, y := FloatVal.num 0, pT := FloatVal.num 0 },
    { id := 2212, y := FloatVal.inf false, pT := FloatVal.num 0 },
    { id := 511, y := FloatVal.num (100000001 / 100000000), pT := FloatVal.num 5 } ]

/-- Three attempts, the second of which raises. -/
def oneFailure : List NextResult :=
  [NextResult.returned true sampleEvent, NextResult.raised,
    NextResult.returned true sampleEvent]

/-- One attempt, which returns `false` and leaves `sampleEvent` in the event
record. -/
def reportedFailure : List NextResult :=
  [NextResult.returned false sampleEvent]

/-- The row of the central B0 of `sampleEvent`. -/
def sampleRow : Row :=
  { ptB := FloatVal.num 5, yB := FloatVal.num 0, pdgB := 511 }

/-- The row of the B0 of `nanEvent`. -/
def nanRow : Row :=
  { ptB := FloatVal.num 5, yB := FloatVal.nan, pdgB := 511 }

/-- The row of the B0 of `roundedEvent`: its rapidity as a `float` is 1.0. -/
def roundedRow : Row :=
  { ptB := FloatVal.num 5, yB := FloatVal.num 1, pdgB := 511 }

/-- The file written by a run of `n` successful events that each give
`sampleRow`, on the scripted generator. -/
def sampleOutFile (n : Nat) : OutFile :=
  { name := "b0_monash.root"
    treeB := some (List.replicate n sampleRow)
    hEvents := some n
    hAcceptedEvents := some n
    hSigmaGen := some (FloatVal.num 0)
    closed := true }

/-! ## Lemmas on the conversion to `float` -/

theorem floor_le_roundHalfEven (x : ℚ) : ⌊x⌋ ≤ roundHalfEven x := by
  unfold roundHalfEven
  simp only
  split_ifs <;> omega

theorem roundHalfEven_le_floor_succ (x : ℚ) : roundHalfEven x ≤ ⌊x⌋ + 1 := by
  unfold roundHalfEven
  simp only
  split_ifs <;> omega

theorem le_roundHalfEven (x : ℚ) (k : ℤ) (h : (k : ℚ) ≤ x) : k ≤ roundHalfEven x :=
  le_trans (Int.le_floor.2 h) (floor_le_roundHalfEven x)

theorem roundHalfEven_of_lt_half (x : ℚ) (k : ℤ) (h1 : (k : ℚ) ≤ x) (h2 : x < k + 1 / 2) :
    roundHalfEven x = k := by
  have hf : ⌊x⌋ = k := by
    rw [Int.floor_eq_iff]
    constructor
    · exact h1
    · linarith
  unfold roundHalfEven
  simp only [hf]
  have : x - (k : ℚ) < 1 / 2 := by linarith
  rw [if_pos this]

theorem roundHalfEven_le_of_lt (x : ℚ) (k : ℤ) (h : x < k + 1 / 2) : roundHalfEven x ≤ k := by
  by_cases hk : (k : ℚ) ≤ x
  · exact le_of_eq (roundHalfEven_of_lt_half x k hk h)
  · have hx : x < k := not_le.1 hk
    have hf : ⌊x⌋ < k := Int.floor_lt.2 hx
    have := roundHalfEven_le_floor_succ x
    omega

theorem roundHalfEven_tie_even (k : ℤ) (hk : k % 2 = 0) :
    roundHalfEven ((k : ℚ) + 1 / 2) = k := by
  have hf : ⌊(k : ℚ) + 1 / 2⌋ = k := by
    rw [Int.floor_eq_iff]
    constructor <;> linarith
  unfold roundHalfEven
  simp only [hf]
  have h1 : ¬ ((k : ℚ) + 1 / 2 - k < 1 / 2) := by
    have : (k : ℚ) + 1 / 2 - k = 1 / 2 := by ring
    rw [this]; exact lt_irrefl _
  have h2 : ¬ ((1 : ℚ) / 2 < (k : ℚ) + 1 / 2 - k) := by
    have : (k : ℚ) + 1 / 2 - k = 1 / 2 := by ring
    rw [this]; exact lt_irrefl _
  rw [if_neg h1, if_neg h2, if_pos hk]

theorem succ_le_roundHalfEven (x : ℚ) (k : ℤ) (h : (k : ℚ) + 1 / 2 < x) :
    k + 1 ≤ roundHalfEven x := by
  have hfk : k ≤ ⌊x⌋ := Int.le_floor.2 (by linarith)
  by_cases hf : ⌊x⌋ = k
  · unfold roundHalfEven
    simp only [hf]
    have h1 : ¬ (x - (k : ℚ) < 1 / 2) := by
      intro hc; linarith
    have h2 : (1 : ℚ) / 2 < x - (k : ℚ) := by linarith
    rw [if_neg h1, if_pos h2]
  · have := floor_le_roundHalfEven x
    omega

theorem roundHalfEven_le_of_le (x : ℚ) (k : ℤ) (h : x ≤ k) : roundHalfEven x ≤ k :=
  roundHalfEven_le_of_lt x k (by linarith)

theorem log_two_eq (a : ℚ) (e : ℤ) (ha : 0 < a) (h1 : (2 : ℚ) ^ e ≤ a) (h2 : a < 2 ^ (e + 1)) :
    Int.log 2 a = e := by
  have hb : 1 < (2 : ℕ) := by norm_num
  have l1 : e ≤ Int.log 2 a := (Int.zpow_le_iff_le_log hb ha).1 (by simpa using h1)
  have l2 : Int.log 2 a < e + 1 := (Int.lt_zpow_iff_log_lt hb ha).1 (by simpa using h2)
  omega

theorem zpow_log_two_le (a : ℚ) (ha : 0 < a) : (2 : ℚ) ^ (Int.log 2 a) ≤ a := by
  have := Int.zpow_log_le_self (b := 2) (by norm_num) ha
  simpa using this

theorem lt_zpow_log_two_succ (a : ℚ) : a < (2 : ℚ) ^ (Int.log 2 a + 1) := by
  have := Int.lt_zpow_succ_log_self (b := 2) (by norm_num) a
  simpa using this

/-- Evaluation of the conversion on a positive number, given its binade and
the rounded significand. -/
theorem toFloat_num_eval (q : ℚ) (e z : ℤ) (hq : 0 < q) (he : -126 ≤ e)
    (h1 : (2 : ℚ) ^ e ≤ q) (h2 : q < 2 ^ (e + 1))
    (hz1 : (z : ℚ) ≤ q / 2 ^ (e - 23)) (hz2 : q / 2 ^ (e - 23) < z + 1 / 2)
    (hov : (z : ℚ) * 2 ^ (e - 23) < 2 ^ 128) :
    toFloat (FloatVal.num q) = FloatVal.num (z * 2 ^ (e - 23)) := by
  have hlog : Int.log 2 |q| = e := by
    rw [abs_of_pos hq]
    exact log_two_eq q e hq h1 h2
  have hr : roundHalfEven (|q| / 2 ^ (e - 23)) = z := by
    rw [abs_of_pos hq]
    exact roundHalfEven_of_lt_half _ z hz1 hz2
  unfold toFloat
  simp only [hlog, max_eq_left he, hr]
  rw [if_neg (ne_of_gt hq), if_neg (not_le.2 hov), if_neg (not_lt.2 (le_of_lt hq))]

theorem toFloat_nan : toFloat FloatVal.nan = FloatVal.nan := rfl

theorem toFloat_zero : toFloat (FloatVal.num 0) = FloatVal.num 0 := by
  simp [toFloat]

theorem toFloat_one : toFloat (FloatVal.num 1) = FloatVal.num 1 := by
  rw [toFloat_num_eval 1 0 8388608 (by norm_num) (by norm_num) (by norm_num) (by norm_num)
    (by norm_num) (by norm_num) (by norm_num)]
  norm_num

theorem toFloat_two : toFloat (FloatVal.num 2) = FloatVal.num 2 := by
  rw [toFloat_num_eval 2 1 8388608 (by norm_num) (by norm_num) (by norm_num) (by norm_num)
    (by norm_num) (by norm_num) (by norm_num)]
  norm_num

theorem toFloat_five : toFloat (FloatVal.num 5) = FloatVal.num 5 := by
  rw [toFloat_num_eval 5 2 10485760 (by norm_num) (by norm_num) (by norm_num) (by norm_num)
    (by norm_num) (by norm_num) (by norm_num)]
  norm_num

/-- The `double` 1.00000001 becomes the `float` 1.0. -/
theorem toFloat_rounded :
    toFloat (FloatVal.num (100000001 / 100000000)) = FloatVal.num 1 := by
  rw [toFloat_num_eval (100000001 / 100000000) 0 8388608 (by norm_num) (by norm_num)
    (by norm_num) (by norm_num) (by norm_num) (by norm_num) (by norm_num)]
  norm_num

theorem two_zpow_mono {m n : ℤ} (h : m ≤ n) : (2 : ℚ) ^ m ≤ 2 ^ n :=
  zpow_le_zpow_right₀ (by norm_num) h

theorem two_zpow_split (e : ℤ) (k : ℕ) (j : ℤ) (h : e - 23 + k = j) :
    (2 : ℚ) ^ j = 2 ^ k * 2 ^ (e - 23) := by
  rw [← h, zpow_add₀ (by norm_num : (2 : ℚ) ≠ 0), zpow_natCast, mul_comm]

/-- The significand and the rounded magnitude in the conversion of a
non-zero number. -/
theorem toFloat_num_cases (q : ℚ) (hq : q ≠ 0) :
    let e := max (Int.log 2 |q|) (-126)
    let m : ℚ := roundHalfEven (|q| / 2 ^ (e - 23)) * 2 ^ (e - 23)
    (toFloat (FloatVal.num q) = FloatVal.inf (decide (q < 0)) ∧ 2 ^ 128 ≤ m) ∨
      (toFloat (FloatVal.num q) = FloatVal.num (if q < 0 then -m else m) ∧ m < 2 ^ 128) := by
  intro e m
  unfold toFloat
  simp only [if_neg hq]
  by_cases h : (2 : ℚ) ^ 128 ≤ m
  · left
    exact ⟨by rw [if_pos h], h⟩
  · right
    exact ⟨by rw [if_neg h], not_le.1 h⟩

/-- The rounded magnitude is at most 1 exactly when the magnitude is at most
`1 + 2⁻²⁴`, the midpoint between 1 and the next `float`. -/
theorem rounded_le_one_iff (a : ℚ) (ha : 0 < a) :
    (roundHalfEven (a / 2 ^ (max (Int.log 2 a) (-126) - 23)) : ℚ) *
        2 ^ (max (Int.log 2 a) (-126) - 23) ≤ 1 ↔ a ≤ 1 + 1 / 2 ^ 24 := by
  have hquant : ∀ e : ℤ, (0 : ℚ) < 2 ^ (e - 23) := fun e => by positivity
  by_cases h1 : a < 1
  · -- below 1: the result is at most 1
    have hlog : Int.log 2 a < 0 :=
      (Int.lt_zpow_iff_log_lt (b := 2) (by norm_num) ha).1 (by simpa using h1)
    set e := max (Int.log 2 a) (-126) with he
    have he1 : e ≤ -1 := by
      rw [he]; exact max_le (by omega) (by norm_num)
    have hlt : a < 2 ^ (e + 1) :=
      lt_of_lt_of_le (lt_zpow_log_two_succ a) (two_zpow_mono (by rw [he]; have := le_max_left (Int.log 2 a) (-126); omega))
    have hsplit : (2 : ℚ) ^ (e + 1) = 2 ^ 24 * 2 ^ (e - 23) :=
      two_zpow_split e 24 (e + 1) (by push_cast; ring)
    have hx : a / 2 ^ (e - 23) ≤ ((2 ^ 24 : ℤ) : ℚ) := by
      rw [div_le_iff₀ (hquant e)]
      have h24 : (((2 ^ 24 : ℤ) : ℚ)) = 2 ^ 24 := by norm_num
      rw [h24, ← hsplit]
      exact le_of_lt hlt
    have hn := roundHalfEven_le_of_le _ _ hx
    have hn' : (roundHalfEven (a / 2 ^ (e - 23)) : ℚ) ≤ 2 ^ 24 := by exact_mod_cast hn
    constructor
    · intro _
      linarith [show (0 : ℚ) < 1 / 2 ^ 24 by positivity]
    · intro _
      calc (roundHalfEven (a / 2 ^ (e - 23)) : ℚ) * 2 ^ (e - 23)
          ≤ 2 ^ 24 * 2 ^ (e - 23) := mul_le_mul_of_nonneg_right hn' (le_of_lt (hquant e))
        _ = 2 ^ (e + 1) := hsplit.symm
        _ ≤ 2 ^ (0 : ℤ) := two_zpow_mono (by omega)
        _ = 1 := by norm_num
  · have h1' : 1 ≤ a := not_lt.1 h1
    have hlog0 : 0 ≤ Int.log 2 a :=
      (Int.zpow_le_iff_le_log (b := 2) (by norm_num) ha).1 (by simpa using h1')
    have hmax : max (Int.log 2 a) (-126) = Int.log 2 a := max_eq_left (by omega)
    rw [hmax]
    set e := Int.log 2 a with he
    have hle : (2 : ℚ) ^ e ≤ a := zpow_log_two_le a ha
    have hsplit : (2 : ℚ) ^ e = 2 ^ 23 * 2 ^ (e - 23) :=
      two_zpow_split e 23 e (by push_cast; ring)
    by_cases h2 : a < 2
    · have he0 : e = 0 := by
        rw [he]
        exact log_two_eq a 0 ha (by simpa using h1') (by simpa using h2)
      rw [he0]
      have hq23 : (2 : ℚ) ^ ((0 : ℤ) - 23) = 1 / 2 ^ 23 := by
        rw [zero_sub, zpow_neg, one_div]
        norm_cast
      rw [hq23]
      have hx : a / (1 / 2 ^ 23) = a * 2 ^ 23 := by field_simp
      rw [hx]
      constructor
      · intro hm
        by_contra hc
        have hgt : ((2 ^ 23 : ℤ) : ℚ) + 1 / 2 < a * 2 ^ 23 := by
          push_cast
          have := not_le.1 hc
          have h3 : (1 + 1 / 2 ^ 24) * 2 ^ 23 < a * 2 ^ 23 :=
            mul_lt_mul_of_pos_right this (by positivity)
          have h4 : ((1 : ℚ) + 1 / 2 ^ 24) * 2 ^ 23 = 2 ^ 23 + 1 / 2 := by norm_num
          linarith
        have hn := succ_le_roundHalfEven _ _ hgt
        have hn' : ((2 : ℚ) ^ 23 + 1) ≤ (roundHalfEven (a * 2 ^ 23) : ℚ) := by exact_mod_cast hn
        have : ((2 : ℚ) ^ 23 + 1) * (1 / 2 ^ 23) ≤
            (roundHalfEven (a * 2 ^ 23) : ℚ) * (1 / 2 ^ 23) :=
          mul_le_mul_of_nonneg_right hn' (by positivity)
        have h5 : ((2 : ℚ) ^ 23 + 1) * (1 / 2 ^ 23) = 1 + 1 / 2 ^ 23 := by norm_num
        have h6 : (0 : ℚ) < 1 / 2 ^ 23 := by positivity
        linarith
      · intro hle1
        have hxle : a * 2 ^ 23 ≤ ((2 ^ 23 : ℤ) : ℚ) + 1 / 2 := by
          push_cast
          have h3 : a * 2 ^ 23 ≤ (1 + 1 / 2 ^ 24) * 2 ^ 23 :=
            mul_le_mul_of_nonneg_right hle1 (by positivity)
          have h4 : ((1 : ℚ) + 1 / 2 ^ 24) * 2 ^ 23 = 2 ^ 23 + 1 / 2 := by norm_num
          linarith
        have hn : roundHalfEven (a * 2 ^ 23) ≤ 2 ^ 23 := by
          rcases lt_or_eq_of_le hxle with hlt | heq
          · exact roundHalfEven_le_of_lt _ _ hlt
          · rw [heq]
            exact le_of_eq (roundHalfEven_tie_even _ (by norm_num))
        have hn' : (roundHalfEven (a * 2 ^ 23) : ℚ) ≤ 2 ^ 23 := by exact_mod_cast hn
        calc (roundHalfEven (a * 2 ^ 23) : ℚ) * (1 / 2 ^ 23)
            ≤ 2 ^ 23 * (1 / 2 ^ 23) := mul_le_mul_of_nonneg_right hn' (by positivity)
          _ = 1 := by norm_num
    · have h2' : 2 ≤ a := not_lt.1 h2
      have he1 : 1 ≤ e := by
        rw [he]
        exact (Int.zpow_le_iff_le_log (b := 2) (by norm_num) ha).1 (by simpa using h2')
      have hx : ((2 ^ 23 : ℤ) : ℚ) ≤ a / 2 ^ (e - 23) := by
        rw [le_div_iff₀ (hquant e)]
        have h23 : (((2 ^ 23 : ℤ) : ℚ)) = 2 ^ 23 := by norm_num
        rw [h23, ← hsplit]
        exact hle
      have hn := le_roundHalfEven _ _ hx
      have hn' : (2 : ℚ) ^ 23 ≤ (roundHalfEven (a / 2 ^ (e - 23)) : ℚ) := by exact_mod_cast hn
      have hbig : (2 : ℚ) ≤ (roundHalfEven (a / 2 ^ (e - 23)) : ℚ) * 2 ^ (e - 23) :=
        calc (2 : ℚ) = 2 ^ (1 : ℤ) := by norm_num
          _ ≤ 2 ^ e := two_zpow_mono he1
          _ = 2 ^ 23 * 2 ^ (e - 23) := hsplit
          _ ≤ _ := mul_le_mul_of_nonneg_right hn' (le_of_lt (hquant e))
      constructor
      · intro hm; linarith
      · intro hle1
        have : (1 : ℚ) / 2 ^ 24 < 1 := by norm_num
        linarith

theorem rounded_nonneg (a : ℚ) (e : ℤ) (ha : 0 ≤ a) :
    (0 : ℚ) ≤ (roundHalfEven (a / 2 ^ (e - 23)) : ℚ) * 2 ^ (e - 23) := by
  have hq : (0 : ℚ) < 2 ^ (e - 23) := by positivity
  have hx : ((0 : ℤ) : ℚ) ≤ a / 2 ^ (e - 23) := by
    rw [Int.cast_zero]
    exact div_nonneg ha (le_of_lt hq)
  have hn := le_roundHalfEven _ _ hx
  have hn' : (0 : ℚ) ≤ (roundHalfEven (a / 2 ^ (e - 23)) : ℚ) := by exact_mod_cast hn
  exact mul_nonneg hn' (le_of_lt hq)

/-- The converted value is not above 1.0 in magnitude exactly when the value
is NaN or of magnitude at most `1 + 2⁻²⁴`. -/
theorem notAboveUnit_toFloat (y : FloatVal) :
    notAboveUnit (toFloat y) = true ↔
      (y = FloatVal.nan ∨ ∃ q : ℚ, y = FloatVal.num q ∧ |q| ≤ 1 + 1 / 2 ^ 24) := by
  cases y with
  | nan => simp [toFloat, notAboveUnit]
  | inf s => simp [toFloat, notAboveUnit]
  | num q =>
    by_cases hq : q = 0
    · subst hq
      simp [toFloat, notAboveUnit]
      positivity
    · have ha : 0 < |q| := abs_pos.2 hq
      have hiff := rounded_le_one_iff |q| ha
      have hnn := rounded_nonneg |q| (max (Int.log 2 |q|) (-126)) (le_of_lt ha)
      have hrhs : (FloatVal.num q = FloatVal.nan ∨
          ∃ q' : ℚ, FloatVal.num q = FloatVal.num q' ∧ |q'| ≤ 1 + 1 / 2 ^ 24) ↔
          |q| ≤ 1 + 1 / 2 ^ 24 := by
        constructor
        · rintro (h | ⟨q', h, hle⟩)
          · cases h
          · cases h; exact hle
        · intro h; exact Or.inr ⟨q, rfl, h⟩
      rw [hrhs, ← hiff]
      rcases toFloat_num_cases q hq with ⟨heq, hbig⟩ | ⟨heq, hsmall⟩
      · rw [heq]
        simp only [notAboveUnit]
        constructor
        · intro h; cases h
        · intro h
          exfalso
          have : (2 : ℚ) ^ 128 ≤ 1 := le_trans hbig h
          norm_num at this
      · rw [heq]
        simp only [notAboveUnit, decide_eq_true_eq]
        by_cases hneg : q < 0
        · rw [if_pos hneg, abs_neg, abs_of_nonneg hnn]
        · rw [if_neg hneg, abs_of_nonneg hnn]

theorem rapidityKept_eq (y : FloatVal) : rapidityKept y = notAboveUnit (toFloat y) := by
  have h := notAboveUnit_toFloat y
  cases hk : rapidityKept y
  · cases hn : notAboveUnit (toFloat y)
    · rfl
    · exfalso
      rcases h.1 hn with hy | ⟨q, hy, hq⟩
      · subst hy; simp [rapidityKept] at hk
      · subst hy; simp [rapidityKept] at hk; linarith
  · symm
    apply h.2
    cases y with
    | nan => exact Or.inl rfl
    | inf s => simp [rapidityKept] at hk
    | num q =>
      simp only [rapidityKept, decide_eq_true_eq] at hk
      exact Or.inr ⟨q, rfl, hk⟩

/-! ## Lemmas on the particle loop -/

theorem isBCode_iff_natAbs (pdg : Int) :
    isBCode pdg = true ↔ ¬ (pdg.natAbs ≠ 511 ∧ pdg.natAbs ≠ 521 ∧ pdg.natAbs ≠ 531) := by
  unfold isBCode
  simp only [decide_eq_true_eq, Int.abs_eq_natAbs]
  omega

theorem notAboveUnit_iff_gt (y : FloatVal) :
    notAboveUnit y = true ↔ (FloatVal.abs y).gt (FloatVal.num 1) = false := by
  cases y with
  | num q => simp [notAboveUnit, FloatVal.abs, FloatVal.gt]
  | inf b => simp [notAboveUnit, FloatVal.abs, FloatVal.gt]
  | nan => simp [notAboveUnit, FloatVal.abs, FloatVal.gt]

theorem fillStep_eq (ntupleB : List Row) (part : Particle) :
    fillStep ntupleB part =
      ntupleB ++ (if isBCode part.id && rapidityKept part.y then [rowOf part] else []) := by
  rw [rapidityKept_eq]
  unfold fillStep
  by_cases hb : isBCode part.id = true
  · have hb2 := (isBCode_iff_natAbs part.id).1 hb
    by_cases hy : notAboveUnit (toFloat part.y) = true
    · have hy2 := (notAboveUnit_iff_gt (toFloat part.y)).1 hy
      simp [hb, hy, hb2, hy2, rowOf]
    · have hy2 : (FloatVal.abs (toFloat part.y)).gt (FloatVal.num 1) = true := by
        cases h : (FloatVal.abs (toFloat part.y)).gt (FloatVal.num 1)
        · exact absurd ((notAboveUnit_iff_gt (toFloat part.y)).2 h) hy
        · rfl
      simp [hb, hy, hy2]
  · have hb2 : part.id.natAbs ≠ 511 ∧ part.id.natAbs ≠ 521 ∧ part.id.natAbs ≠ 531 := by
      by_contra hc
      exact hb ((isBCode_iff_natAbs part.id).2 hc)
    simp [hb, hb2]

theorem foldl_fillStep (parts : List Particle) (ntupleB : List Row) :
    parts.foldl fillStep ntupleB =
      ntupleB ++ (parts.filter (fun p => isBCode p.id && rapidityKept p.y)).map rowOf := by
  induction parts generalizing ntupleB with
  | nil => simp
  | cons p rest ih =>
    rw [List.foldl_cons, ih, fillStep_eq]
    by_cases h : (isBCode p.id && rapidityKept p.y) = true
    · simp [h, List.filter_cons]
    · simp [h, List.filter_cons]

theorem enumFrom_filter_index (f : Particle → Bool) (row : Particle → Row)
    (parts : List Particle) (n : Nat) (hn : 2 ≤ n) :
    ((parts.enumFrom n).filter (fun ip => decide (2 ≤ ip.1) && f ip.2)).map (fun ip => row ip.2)
      = (parts.filter f).map row := by
  induction parts generalizing n with
  | nil => simp
  | cons p rest ih =>
    have h := ih (n + 1) (by omega)
    by_cases hf : f p = true
    · simp [List.enumFrom_cons, List.filter_cons, hn, hf, h]
    · simp [List.enumFrom_cons, List.filter_cons, hn, hf, h]

theorem selectedRows_eq_drop (cut : FloatVal → Bool) (row : Particle → Row) (event : Event) :
    selectedRows cut row event =
      ((event.drop 2).filter (fun p => isBCode p.id && cut p.y)).map row := by
  unfold selectedRows
  have key := enumFrom_filter_index (fun p => isBCode p.id && cut p.y) row
  match event with
  | [] => simp
  | [a] => simp [List.enum]
  | a :: b :: rest =>
    have h := key rest 2 (le_refl 2)
    simp only [Bool.and_assoc] at h ⊢
    simp [List.enum, List.enumFrom_cons, List.filter_cons, h]

theorem fillTree_eq (event : Event) (ntupleB : List Row) :
    fillTree event ntupleB = ntupleB ++ selectedRows rapidityKept rowOf event := by
  rw [selectedRows_eq_drop]
  exact foldl_fillStep _ _

/-! ## Lemmas on the event loop -/

theorem eventIteration_nextCalls {σ : Type} (gen : Generator σ) (i : Nat) (st : LoopState σ) :
    (eventIteration gen i st).nextCalls = st.nextCalls + 1 := by
  unfold eventIteration tryEvent
  rcases h : gen.next st.pythia with ⟨s, _ | ⟨ok, ev⟩⟩ <;> by_cases hp : i % 100000 = 0 <;>
    simp [hp]

theorem eventLoop_nextCalls {σ : Type} (gen : Generator σ) (n : Nat) (st : LoopState σ) :
    (eventLoop gen n st).nextCalls = st.nextCalls + n := by
  induction n with
  | zero => simp [eventLoop]
  | succ m ih => rw [eventLoop, eventIteration_nextCalls, ih]; omega

theorem eventIteration_of_raised {σ : Type} (gen : Generator σ) (i : Nat) (st : LoopState σ)
    (h : (gen.next st.pythia).2 = NextResult.raised) :
    (eventIteration gen i st).ntupleB = st.ntupleB ∧
      (eventIteration gen i st).nNonFailedEvents = st.nNonFailedEvents ∧
      (eventIteration gen i st).cerrLines = st.cerrLines + 1 := by
  unfold eventIteration tryEvent
  rcases hn : gen.next st.pythia with ⟨s, _ | ⟨ok, ev⟩⟩
  · by_cases hp : i % 100000 = 0 <;> simp [hp]
  · rw [hn] at h; cases h

theorem eventIteration_of_returned {σ : Type} (gen : Generator σ) (i : Nat) (st : LoopState σ)
    (ok : Bool) (event : Event) (h : (gen.next st.pythia).2 = NextResult.returned ok event) :
    (eventIteration gen i st).ntupleB = fillTree event st.ntupleB ∧
      (eventIteration gen i st).nNonFailedEvents = st.nNonFailedEvents + 1 ∧
      (eventIteration gen i st).cerrLines = st.cerrLines := by
  unfold eventIteration tryEvent
  rcases hn : gen.next st.pythia with ⟨s, _ | ⟨ok2, ev⟩⟩
  · rw [hn] at h; cases h
  · rw [hn] at h
    cases h
    by_cases hp : i % 100000 = 0 <;> simp [hp]

theorem raisedAttempts_succ {σ : Type} (gen : Generator σ) (s0 : σ) (n : Nat) :
    raisedAttempts gen s0 (n + 1) =
      raisedAttempts gen s0 n + (if attemptRaises gen s0 n = true then 1 else 0) := by
  unfold raisedAttempts
  rw [List.range_succ, List.filter_append, List.length_append]
  by_cases h : attemptRaises gen s0 n = true <;> simp [h]

theorem eventLoop_count {σ : Type} (gen : Generator σ) (s0 : σ) (n : Nat) :
    (eventLoop gen n (LoopState.start s0)).nNonFailedEvents + raisedAttempts gen s0 n = n ∧
      (eventLoop gen n (LoopState.start s0)).cerrLines = raisedAttempts gen s0 n := by
  induction n with
  | zero => simp [eventLoop, LoopState.start, raisedAttempts]
  | succ m ih =>
    rw [eventLoop, raisedAttempts_succ]
    cases h : attempt gen s0 m with
    | raised =>
      have hf : attemptRaises gen s0 m = true := by simp [attemptRaises, NextResult.isRaised, h]
      obtain ⟨_, h2, h3⟩ := eventIteration_of_raised gen m _ h
      rw [h2, h3, hf]
      simp
      omega
    | returned ok ev =>
      have hf : attemptRaises gen s0 m = false := by simp [attemptRaises, NextResult.isRaised, h]
      obtain ⟨_, h2, h3⟩ := eventIteration_of_returned gen m _ ok ev h
      rw [h2, h3, hf]
      simp
      omega

/-! ## Lemmas on the rows of a run -/

theorem isBCode_spec (pdg : Int) :
    isBCode pdg = true ↔ (|pdg| = 511 ∨ |pdg| = 521 ∨ |pdg| = 531) := by
  simp [isBCode]

theorem notAboveUnit_spec (y : FloatVal) :
    notAboveUnit y = true ↔ (y = FloatVal.nan ∨ ∃ q : ℚ, y = FloatVal.num q ∧ |q| ≤ 1) := by
  cases y <;> simp [notAboveUnit]

theorem mem_recordedRows (event : Event) (r : Row)
    (h : r ∈ selectedRows rapidityKept rowOf event) :
    isBCode r.pdgB = true ∧ notAboveUnit r.yB = true := by
  rw [selectedRows_eq_drop, List.mem_map] at h
  obtain ⟨p, hp, rfl⟩ := h
  have := (List.mem_filter.1 hp).2
  rw [rapidityKept_eq] at this
  simpa [rowOf] using this

theorem eventLoop_rows {σ : Type} (gen : Generator σ) (s0 : σ) (n : Nat) :
    ∀ r ∈ (eventLoop gen n (LoopState.start s0)).ntupleB,
      isBCode r.pdgB = true ∧ notAboveUnit r.yB = true := by
  induction n with
  | zero => simp [eventLoop, LoopState.start]
  | succ m ih =>
    intro r hr
    rw [eventLoop] at hr
    cases h : attempt gen s0 m with
    | raised =>
      rw [(eventIteration_of_raised gen m _ h).1] at hr
      exact ih r hr
    | returned ok ev =>
      rw [(eventIteration_of_returned gen m _ ok ev h).1, fillTree_eq, List.mem_append] at hr
      rcases hr with hr | hr
      · exact ih r hr
      · exact mem_recordedRows _ _ hr

/-! ## Lemmas on the settings -/

theorem settingKey_seedSetting (seed : Int) : settingKey (seedSetting seed) = "Random:seed" := by
  simp [settingKey, seedSetting, String.data_append]

theorem readStrings_keys_nodup (seed : Int) (tune : String) :
    ((readStrings seed tune).map settingKey).Nodup := by
  unfold readStrings tuneSettings baselineHead baselineTail
  split_ifs <;> simp [settingKey_seedSetting] <;> simp [settingKey]

theorem lastWrite_eq_none (key : String) (l : List String) :
    lastWrite key l = none ↔ ∀ s ∈ l, settingKey s ≠ key := by
  induction l with
  | nil => simp [lastWrite]
  | cons a rest ih =>
    unfold lastWrite
    cases h : lastWrite key rest with
    | some t =>
      have : ¬ ∀ s ∈ rest, settingKey s ≠ key := fun hc => by
        rw [ih.2 hc] at h; cases h
      simp only [List.mem_cons, forall_eq_or_imp]
      constructor
      · intro hc; cases hc
      · intro hc; exact absurd hc.2 this
    | none =>
      have hr := ih.1 h
      by_cases hk : settingKey a = key
      · simp [hk]
      · simp only [hk, if_false, List.mem_cons, forall_eq_or_imp, true_iff]
        exact ⟨hk, hr⟩

theorem lastWrite_eq_some (key : String) (l : List String) (hnd : (l.map settingKey).Nodup) :
    ∀ s : String, lastWrite key l = some s ↔ s ∈ l ∧ settingKey s = key := by
  induction l with
  | nil => simp [lastWrite]
  | cons a rest ih =>
    rw [List.map_cons, List.nodup_cons] at hnd
    have ih2 := ih hnd.2
    intro s
    unfold lastWrite
    cases h : lastWrite key rest with
    | some t =>
      have ht := (ih2 t).1 h
      simp only [Option.some.injEq, List.mem_cons]
      constructor
      · intro hts
        subst hts
        exact ⟨Or.inr ht.1, ht.2⟩
      · rintro ⟨hs | hs, hk⟩
        · subst hs
          exact absurd (List.mem_map.2 ⟨t, ht.1, by rw [ht.2, hk]⟩) hnd.1
        · have := (ih2 s).2 ⟨hs, hk⟩
          rw [h] at this
          exact Option.some.inj this
    | none =>
      have hr := (lastWrite_eq_none key rest).1 h
      simp only [List.mem_cons]
      by_cases hk : settingKey a = key
      · simp only [hk, if_true, Option.some.injEq]
        constructor
        · intro has
          subst has
          exact ⟨Or.inl rfl, hk⟩
        · rintro ⟨hs | hs, hks⟩
          · exact hs.symm
          · exact absurd hks (hr s hs)
      · simp only [hk, if_false]
        constructor
        · intro hc; cases hc
        · rintro ⟨hs | hs, hks⟩
          · subst hs; exact absurd hks hk
          · exact absurd hks (hr s hs)

theorem lastWrite_perm (key : String) (l l2 : List String) (hnd : (l.map settingKey).Nodup)
    (hp : l2.Perm l) : lastWrite key l2 = lastWrite key l := by
  have hnd2 : (l2.map settingKey).Nodup := ((hp.map settingKey).nodup_iff).2 hnd
  apply Option.ext
  intro s
  simp only [Option.mem_def]
  rw [lastWrite_eq_some key l2 hnd2 s, lastWrite_eq_some key l hnd s, hp.mem_iff]

theorem tuneSettings_eq_nil_iff (tune : String) : tuneSettings tune = [] ↔ tune ∉ tuneNames := by
  unfold tuneSettings tuneNames
  split_ifs with h1 h2 h3 h4 h5 h6 <;> simp [*]

theorem tuneSettings_distinct : (tuneNames.map tuneSettings).Nodup := by
  simp [tuneNames, tuneSettings]



theorem tune_setting_not_baseline (seed : Int) (tune : String) (s : String)
    (hs : s ∈ tuneSettings tune) : s ∉ baselineSettings seed := by
  have hnd : (readStrings seed tune).Nodup :=
    List.Nodup.of_map settingKey (readStrings_keys_nodup seed tune)
  unfold readStrings at hnd
  have h1 := List.nodup_append.1 hnd
  have h2 := List.nodup_append.1 h1.1
  intro hb
  unfold baselineSettings at hb
  rcases List.mem_append.1 hb with hb | hb
  · exact h2.2.2 hb hs
  · exact h1.2.2 (List.mem_append.2 (Or.inr hs)) hb

theorem readStrings_ne_baseline (seed : Int) (tune : String) (hne : tuneSettings tune ≠ []) :
    readStrings seed tune ≠ baselineSettings seed := by
  intro h
  have hl := congrArg List.length h
  simp only [readStrings, baselineSettings, List.length_append] at hl
  have hpos : 0 < (tuneSettings tune).length := List.length_pos.2 hne
  omega

/-! ## Lemmas on the run -/

theorem run_readStrings {σ : Type} (pythia : Generator σ) (nEvents seed : Int)
    (tune outFileName : String) :
    (simulateB0production pythia nEvents seed tune outFileName).readStrings =
      readStrings seed tune := by
  cases h : pythia.init (readStrings seed tune) <;> simp [simulateB0production, h]

theorem run_returned {σ : Type} (pythia : Generator σ) (nEvents seed : Int)
    (tune outFileName : String) :
    (simulateB0production pythia nEvents seed tune outFileName).returned =
      !(pythia.init (readStrings seed tune)).isRaised := by
  cases h : pythia.init (readStrings seed tune) <;>
    simp [simulateB0production, h, InitResult.isRaised]

/-! ## Lemmas on two runs -/

theorem tryEvent_same {σ τ : Type} (g : Generator σ) (h : Generator τ)
    (st1 : LoopState σ) (st2 : LoopState τ)
    (hnext : (g.next st1.pythia).2 = (h.next st2.pythia).2)
    (hc : st1.counters = st2.counters) :
    (tryEvent g st1).counters = (tryEvent h st2).counters ∧
      (tryEvent g st1).pythia = (g.next st1.pythia).1 ∧
      (tryEvent h st2).pythia = (h.next st2.pythia).1 := by
  unfold tryEvent
  rcases h1 : g.next st1.pythia with ⟨a, r1⟩
  rcases h2 : h.next st2.pythia with ⟨b, r2⟩
  rw [h1, h2] at hnext
  simp only at hnext
  subst hnext
  simp only [LoopState.counters, Prod.mk.injEq] at hc
  obtain ⟨c1, c2, c3, c4, c5⟩ := hc
  cases r1 with
  | raised => simp [LoopState.counters, c1, c2, c3, c4, c5]
  | returned ok ev => simp [LoopState.counters, c1, c2, c3, c4, c5]

theorem eventIteration_same {σ τ : Type} (g : Generator σ) (h : Generator τ) (i : Nat)
    (st1 : LoopState σ) (st2 : LoopState τ)
    (hnext : (g.next st1.pythia).2 = (h.next st2.pythia).2)
    (hc : st1.counters = st2.counters) :
    (eventIteration g i st1).counters = (eventIteration h i st2).counters ∧
      (eventIteration g i st1).pythia = (g.next st1.pythia).1 ∧
      (eventIteration h i st2).pythia = (h.next st2.pythia).1 := by
  obtain ⟨t1, t2, t3⟩ := tryEvent_same g h st1 st2 hnext hc
  simp only [LoopState.counters, Prod.mk.injEq] at t1
  obtain ⟨c1, c2, c3, c4, c5⟩ := t1
  unfold eventIteration
  by_cases hp : i % 100000 = 0
  · simp [hp, LoopState.counters, c1, c2, c3, c4, c5, t2, t3]
  · simp [hp, LoopState.counters, c1, c2, c3, c4, c5, t2, t3]

theorem eventLoop_same {σ τ : Type} (g : Generator σ) (h : Generator τ) (R : σ → τ → Prop)
    (hsame : SameStream g h R) (s : σ) (t : τ) (hst : R s t) (n : Nat) :
    R (eventLoop g n (LoopState.start s)).pythia (eventLoop h n (LoopState.start t)).pythia ∧
      (eventLoop g n (LoopState.start s)).counters =
        (eventLoop h n (LoopState.start t)).counters := by
  induction n with
  | zero => exact ⟨hst, rfl⟩
  | succ m ih =>
    obtain ⟨hR, hc⟩ := ih
    obtain ⟨hn, hR2⟩ := hsame.next _ _ hR
    obtain ⟨e1, e2, e3⟩ := eventIteration_same g h m _ _ hn hc
    rw [eventLoop, eventLoop, e2, e3]
    exact ⟨hR2, e1⟩

theorem run_same {σ τ : Type} (g : Generator σ) (h : Generator τ) (R : σ → τ → Prop)
    (hsame : SameStream g h R) (nEvents seed : Int) (tune name1 name2 : String) :
    simulateB0production h nEvents seed tune name2 =
      Run.renamed name2 (simulateB0production g nEvents seed tune name1) := by
  rcases hsame.init (readStrings seed tune) with ⟨h1, h2⟩ | ⟨ok1, ok2, s, t, h1, h2, hst⟩
  · simp [simulateB0production, h1, h2, Run.renamed]
  · obtain ⟨hR, hc⟩ := eventLoop_same g h R hsame s t hst nEvents.toNat
    simp only [LoopState.counters, Prod.mk.injEq] at hc
    obtain ⟨c1, c2, c3, c4, c5⟩ := hc
    simp [simulateB0production, h1, h2, Run.renamed, c1, c2, c3, c4, c5,
      hsame.nAccepted _ _ hR, hsame.sigmaGen _ _ hR]

theorem renamed_hEvents (name : String) (run : Run) :
    (Run.renamed name run).outFile.map OutFile.hEvents = run.outFile.map OutFile.hEvents := by
  cases run with
  | mk a b c d f e => cases f <;> rfl

theorem renamed_hAcceptedEvents (name : String) (run : Run) :
    (Run.renamed name run).outFile.map OutFile.hAcceptedEvents =
      run.outFile.map OutFile.hAcceptedEvents := by
  cases run with
  | mk a b c d f e => cases f <;> rfl

theorem renamed_treeB (name : String) (run : Run) :
    (Run.renamed name run).outFile.map OutFile.treeB = run.outFile.map OutFile.treeB := by
  cases run with
  | mk a b c d f e => cases f <;> rfl

theorem acceptedCount_append_singleton (l : List NextResult) (r : NextResult) :
    acceptedCount (l ++ [r]) = acceptedCount l + (if r.accepted = true then 1 else 0) := by
  unfold acceptedCount
  rw [List.filter_append, List.length_append]
  by_cases h : r.accepted = true <;> simp [h]

theorem scripted_replay_same (start : Option Bool) (outcomes : List NextResult) :
    SameStream (scripted start outcomes) (replay start outcomes) (replayRel outcomes) where
  init := by
    intro settings
    cases start with
    | none => exact Or.inl ⟨rfl, rfl⟩
    | some ok =>
      refine Or.inr ⟨ok, ok, (outcomes, 0), 0, rfl, rfl, ?_⟩
      simp [replayRel, acceptedCount]
  next := by
    intro s i hsi
    unfold replayRel at hsi
    subst hsi
    by_cases hi : i < outcomes.length
    · have hd : outcomes.drop i = outcomes[i] :: outcomes.drop (i + 1) :=
        List.drop_eq_getElem_cons hi
      have ht : outcomes.take (i + 1) = outcomes.take i ++ [outcomes[i]] := by
        rw [List.take_succ, List.getElem?_eq_getElem hi]
        rfl
      have hg : outcomes[i]?.getD (NextResult.returned false []) = outcomes[i] := by
        simp [List.getElem?_eq_getElem hi]
      cases hr : outcomes[i] with
      | raised =>
        simp [scripted, replay, replayRel, hd, ht, hg, hr, acceptedCount_append_singleton,
          NextResult.accepted]
      | returned ok ev =>
        cases ok <;>
          simp [scripted, replay, replayRel, hd, ht, hg, hr, acceptedCount_append_singleton,
            NextResult.accepted]
    · have hle : outcomes.length ≤ i := not_lt.1 hi
      have hd : outcomes.drop i = [] := List.drop_eq_nil_of_le hle
      have hd2 : outcomes.drop (i + 1) = [] := List.drop_eq_nil_of_le (by omega)
      have ht : outcomes.take i = outcomes := List.take_of_length_le hle
      have ht2 : outcomes.take (i + 1) = outcomes := List.take_of_length_le (by omega)
      have hg : outcomes[i]?.getD (NextResult.returned false []) =
          NextResult.returned false [] := by
        simp [List.getElem?_eq_none hle]
      simp [scripted, replay, replayRel, hd, hd2, ht, ht2, hg]
  nAccepted := by
    intro s i hsi
    unfold replayRel at hsi
    subst hsi
    rfl
  sigmaGen := by
    intro s i _
    rfl

/-! ## The particle table -/

/-- C1 (as stated, refuted): in a one-event run whose event holds a B0 with a
rapidity that is not a number, the row written to `treeB` has a rapidity that
is not a number, hence not of magnitude at most 1.0. -/
theorem treeB_rapidity_counterexample :
    ∃ f rows r,
      (simulateB0production (scripted (some true) [NextResult.returned true nanEvent]) 1 42 "monash"
        "b0_monash.root").outFile = some f ∧
      f.treeB = some rows ∧ r ∈ rows ∧ r.yB = FloatVal.nan ∧
      ¬ ∃ q : ℚ, r.yB = FloatVal.num q ∧ |q| ≤ 1 := by
  refine ⟨_, _, nanRow, rfl, rfl, ?_, rfl, ?_⟩
  · simp [eventLoop, eventIteration, tryEvent, LoopState.start, scripted, fillTree, fillStep,
      nanEvent, nanRow, FloatVal.abs, FloatVal.gt, toFloat_nan, toFloat_five]
  · simp [nanRow]

/-- C1 (amended): every row written to `treeB` by any run has a type code of
absolute value 511, 521 or 531 and a rapidity that is not above 1.0 in
magnitude: it is a number of absolute value at most 1, or it is not a
number. -/
theorem treeB_rows_in_acceptance {σ : Type} (pythia : Generator σ) (nEvents seed : Int)
    (tune outFileName : String) (f : OutFile) (rows : List Row)
    (hf : (simulateB0production pythia nEvents seed tune outFileName).outFile = some f)
    (hrows : f.treeB = some rows) (r : Row) (hr : r ∈ rows) :
    (|r.pdgB| = 511 ∨ |r.pdgB| = 521 ∨ |r.pdgB| = 531) ∧
      (r.yB = FloatVal.nan ∨ ∃ q : ℚ, r.yB = FloatVal.num q ∧ |q| ≤ 1) := by
  unfold simulateB0production at hf
  cases hi : pythia.init (readStrings seed tune) with
  | raised => simp [hi] at hf
  | returned ok s0 =>
    simp only [hi, Option.some.injEq] at hf
    subst hf
    simp only [Option.some.injEq] at hrows
    subst hrows
    have h := eventLoop_rows pythia s0 nEvents.toNat r hr
    exact ⟨(isBCode_spec _).1 h.1, (notAboveUnit_spec _).1 h.2⟩

/-- C1 (amended), evaluated: a one-event run on `sampleEvent` writes the row of
the central B0, which lies in the acceptance. -/
theorem treeB_rows_in_acceptance_witness :
    (simulateB0production (scripted (some true) [NextResult.returned true sampleEvent]) 1 42 "monash"
        "b0_monash.root").outFile = some (sampleOutFile 1) ∧
      (sampleOutFile 1).treeB = some [sampleRow] ∧ sampleRow ∈ [sampleRow] ∧
      (|sampleRow.pdgB| = 511 ∨ |sampleRow.pdgB| = 521 ∨ |sampleRow.pdgB| = 531) ∧
      (sampleRow.yB = FloatVal.nan ∨ ∃ q : ℚ, sampleRow.yB = FloatVal.num q ∧ |q| ≤ 1) := by
  have hrun : (simulateB0production (scripted (some true) [NextResult.returned true sampleEvent]) 1 42 "monash"
      "b0_monash.root").outFile = some (sampleOutFile 1) := by
    simp [simulateB0production, eventLoop, eventIteration, tryEvent, LoopState.start, scripted,
      fillTree, fillStep, sampleEvent, sampleOutFile, sampleRow, FloatVal.abs, FloatVal.gt,
      toFloat_zero, toFloat_two, toFloat_five]
  have hmem : sampleRow ∈ [sampleRow] := List.mem_singleton.2 rfl
  exact ⟨hrun, rfl, hmem,
    treeB_rows_in_acceptance (scripted (some true) [NextResult.returned true sampleEvent]) 1 42 "monash" "b0_monash.root"
      (sampleOutFile 1) [sampleRow] hrun rfl sampleRow hmem⟩

/-- C2 (as stated, refuted): for the event `nanEvent` the particle loop
records the row of the B0 at index 2, whose rapidity is not a number, and for
the event `roundedEvent` it records the row of the B0 at index 2, whose
rapidity 1.00000001 is above 1.0 and becomes 1.0 as a `float`; in both events
no entry has a B type code together with a rapidity of magnitude at most 1.0,
and the second row is not the triple of its entry. -/
theorem particle_loop_counterexample :
    fillTree nanEvent [] = [nanRow] ∧ selectedRows withinUnit tripleOf nanEvent = [] ∧
      fillTree roundedEvent [] = [roundedRow] ∧
      selectedRows withinUnit tripleOf roundedEvent = [] ∧
      roundedRow ∉ roundedEvent.map tripleOf := by
  refine ⟨?_, ?_, ?_, ?_, ?_⟩
  · simp [fillTree, fillStep, nanEvent, nanRow, FloatVal.abs, FloatVal.gt, toFloat_nan,
      toFloat_five]
  · simp [selectedRows, nanEvent, List.enum, List.enumFrom, withinUnit, isBCode]
  · simp [fillTree, fillStep, roundedEvent, roundedRow, FloatVal.abs, FloatVal.gt,
      toFloat_rounded, toFloat_five]
  · simp [selectedRows, roundedEvent, List.enum, List.enumFrom, withinUnit, isBCode]
    norm_num [abs_of_pos]
  · simp [roundedEvent, roundedRow, tripleOf]
    norm_num

/-- C2 (amended): the rows the particle loop records for an event are exactly,
in event order, the triples (transverse momentum as a `float`, rapidity as a
`float`, type code) of the entries at index 2 or higher whose type code has
absolute value 511, 521 or 531 and whose rapidity is kept by the cut; a
rapidity is kept exactly when it is not a number or of magnitude at most
`1 + 2⁻²⁴`, that is when, as a `float`, it is not a number or of magnitude at
most 1.0.  This is what an attempt whose call of `next()` returns appends to
the ntuple, and an attempt that raises appends nothing; entries 0 and 1 are
never recorded, an event with fewer than three entries yields no rows, and
whether an entry is kept does not depend on its transverse momentum. -/
theorem particle_loop_rows {σ : Type} (gen : Generator σ) (st : LoopState σ) (event : Event)
    (ntupleB : List Row) :
    fillTree event ntupleB = ntupleB ++ selectedRows rapidityKept rowOf event ∧
      (∀ y : FloatVal, rapidityKept y = true ↔
        (y = FloatVal.nan ∨ ∃ q : ℚ, y = FloatVal.num q ∧ |q| ≤ 1 + 1 / 2 ^ 24)) ∧
      (∀ y : FloatVal, rapidityKept y = true ↔
        (toFloat y = FloatVal.nan ∨ ∃ q : ℚ, toFloat y = FloatVal.num q ∧ |q| ≤ 1)) ∧
      (∀ part : Particle, rowOf part =
        { ptB := toFloat part.pT, yB := toFloat part.y, pdgB := part.id }) ∧
      (tryEvent gen st).ntupleB =
        st.ntupleB ++ (match (gen.next st.pythia).2 with
          | NextResult.returned _ ev => selectedRows rapidityKept rowOf ev
          | NextResult.raised => []) ∧
      (∀ a b c d : Particle, ∀ rest : List Particle,
        fillTree (a :: b :: rest) ntupleB = fillTree (c :: d :: rest) ntupleB) ∧
      fillTree [] ntupleB = ntupleB ∧
      (∀ a : Particle, fillTree [a] ntupleB = ntupleB) ∧
      (∀ a b : Particle, fillTree [a, b] ntupleB = ntupleB) ∧
      (∀ (part : Particle) (pt : FloatVal),
        (fillStep ntupleB { part with pT := pt } = ntupleB ↔ fillStep ntupleB part = ntupleB)) := by
  refine ⟨fillTree_eq _ _, ?_, ?_, fun _ => rfl, ?_, ?_, rfl, fun _ => rfl, fun _ _ => rfl, ?_⟩
  · intro y
    rw [rapidityKept_eq]
    exact notAboveUnit_toFloat y
  · intro y
    rw [rapidityKept_eq]
    exact notAboveUnit_spec (toFloat y)
  · unfold tryEvent
    rcases h : gen.next st.pythia with ⟨s, _ | ⟨ok, ev⟩⟩
    · simp
    · simp [fillTree_eq]
  · intro a b c d rest
    rfl
  · intro part pt
    simp [fillStep_eq]

/-- C2 (amended), evaluated on `sampleEvent`: only the central B0 at index 3
gives a row; the B_s at index 4 has rapidity 2 and the pion is no B meson. -/
theorem particle_loop_rows_witness :
    fillTree sampleEvent [] = [sampleRow] := by
  rw [(particle_loop_rows (scripted (some true) []) (LoopState.start ([], 0)) sampleEvent []).1]
  simp [selectedRows, sampleEvent, sampleRow, List.enum, List.enumFrom, rapidityKept, isBCode,
    rowOf, toFloat_zero, toFloat_five]
  norm_num [toFloat_zero, toFloat_five]

/-! ## The event loop and the output -/

/-- An attempt whose call of `next()` raises is not counted and adds no row,
and whatever the attempts give, a run whose `init()` returns makes all the
calls of `next()` requested, writes the ntuple and the three counters and
closes the file, with `hEvents` holding the number of events requested minus
the number of attempts that raise. -/
theorem run_with_attempts {σ : Type} (pythia : Generator σ) (ok : Bool) (s0 : σ)
    (seed : Int) (tune outFileName : String)
    (hinit : pythia.init (readStrings seed tune) = InitResult.returned ok s0) (N : Nat) :
    (simulateB0production pythia N seed tune outFileName).nextCalls = N ∧
      (simulateB0production pythia N seed tune outFileName).returned = true ∧
      (simulateB0production pythia N seed tune outFileName).cerrLines =
        raisedAttempts pythia s0 N ∧
      raisedAttempts pythia s0 N ≤ N ∧
      (∃ f, (simulateB0production pythia N seed tune outFileName).outFile = some f ∧
        f.hEvents = some (N - raisedAttempts pythia s0 N) ∧
        f.treeB = some (eventLoop pythia N (LoopState.start s0)).ntupleB ∧
        f.hAcceptedEvents.isSome = true ∧ f.hSigmaGen.isSome = true ∧ f.closed = true) ∧
      (∀ k, attemptRaises pythia s0 k = true →
        (eventLoop pythia (k + 1) (LoopState.start s0)).ntupleB =
          (eventLoop pythia k (LoopState.start s0)).ntupleB ∧
        (eventLoop pythia (k + 1) (LoopState.start s0)).nNonFailedEvents =
          (eventLoop pythia k (LoopState.start s0)).nNonFailedEvents) := by
  have hcount := eventLoop_count pythia s0 N
  refine ⟨?_, ?_, ?_, by omega, ?_, ?_⟩
  · simp [simulateB0production, hinit, eventLoop_nextCalls, LoopState.start]
  · simp [simulateB0production, hinit]
  · simp [simulateB0production, hinit, hcount.2]
  · simp only [simulateB0production, hinit]
    refine ⟨_, rfl, ?_, rfl, rfl, rfl, rfl⟩
    simp only [Option.some.injEq, Int.toNat_ofNat]
    omega
  · intro k hraise
    have hstep := eventIteration_of_raised pythia k (eventLoop pythia k (LoopState.start s0))
      (by
        unfold attemptRaises attempt at hraise
        cases hr : (pythia.next (eventLoop pythia k (LoopState.start s0)).pythia).2 with
        | raised => rfl
        | returned ok2 ev => rw [hr] at hraise; cases hraise)
    exact ⟨hstep.1, hstep.2.1⟩

/-- C3 (the code at the failing input): in a one-event run whose only attempt
fails, the call of `next()` returning `false` and leaving `sampleEvent` in
the event record, the call is made and the output is written and closed, but
the attempt is counted and its rows are recorded: `hEvents` holds 1, not 0,
and `treeB` holds the row of the B0.  In the same run with a call of `next()`
that raises, `hEvents` holds 0 and `treeB` is empty. -/
theorem failed_attempt_is_counted :
    attemptFails (scripted (some true) reportedFailure) (reportedFailure, 0) 0 = true ∧
      simulateB0production (scripted (some true) reportedFailure) 1 42 "monash"
          "b0_monash.root" =
        { readStrings := readStrings 42 "monash", nextCalls := 1, cerrLines := 0,
          progress := [1],
          outFile := some
            { name := "b0_monash.root"
              treeB := some [sampleRow]
              hEvents := some 1
              hAcceptedEvents := some 0
              hSigmaGen := some (FloatVal.num 0)
              closed := true }
          returned := true } ∧
      attemptFails (scripted (some true) [NextResult.raised]) ([NextResult.raised], 0) 0 = true ∧
      simulateB0production (scripted (some true) [NextResult.raised]) 1 42 "monash"
          "b0_monash.root" =
        { readStrings := readStrings 42 "monash", nextCalls := 1, cerrLines := 1,
          progress := [1],
          outFile := some
            { name := "b0_monash.root"
              treeB := some []
              hEvents := some 0
              hAcceptedEvents := some 0
              hSigmaGen := some (FloatVal.num 0)
              closed := true }
          returned := true } := by
  refine ⟨rfl, ?_, rfl, ?_⟩
  · simp [simulateB0production, eventLoop, eventIteration, tryEvent, LoopState.start, scripted,
      reportedFailure, fillTree, fillStep, sampleEvent, sampleRow, FloatVal.abs,
      FloatVal.gt, toFloat_zero, toFloat_two, toFloat_five]
  · simp [simulateB0production, eventLoop, eventIteration, tryEvent, LoopState.start, scripted]

/-- C4 (as stated, refuted): on a generator whose `init()` returns `false`,
and whose calls of `next()` then return `false` with an empty event record, a
run of two events creates the output file, calls `next()` twice, and writes
and closes the file, with `hEvents` holding 2. -/
theorem init_failure_counterexample :
    ((scripted (some false) []).init (readStrings 42 "monash")).failed = true ∧
      simulateB0production (scripted (some false) []) 2 42 "monash" "b0_monash.root" =
        { readStrings := readStrings 42 "monash", nextCalls := 2, cerrLines := 0,
          progress := [1],
          outFile := some
            { name := "b0_monash.root"
              treeB := some []
              hEvents := some 2
              hAcceptedEvents := some 0
              hSigmaGen := some (FloatVal.num 0)
              closed := true }
          returned := true } := by
  refine ⟨rfl, ?_⟩
  simp [simulateB0production, eventLoop, eventIteration, tryEvent, LoopState.start, scripted,
    fillTree]

/-- C4 (amended): when the call `pythia.init()` raises, the run ends at once,
after the settings have been read: the output file is not created, `next()`
is never called, nothing is logged and nothing is written. -/
theorem init_raised_no_output {σ : Type} (pythia : Generator σ) (nEvents seed : Int)
    (tune outFileName : String)
    (hinit : pythia.init (readStrings seed tune) = InitResult.raised) :
    simulateB0production pythia nEvents seed tune outFileName =
      { readStrings := readStrings seed tune, nextCalls := 0, cerrLines := 0, progress := [],
        outFile := none, returned := false } := by
  simp [simulateB0production, hinit]

/-- C4 (amended), evaluated on a generator whose `init()` raises. -/
theorem init_raised_no_output_witness :
    (scripted none oneFailure).init (readStrings 42 "monash") = InitResult.raised ∧
      (simulateB0production (scripted none oneFailure) 5 42 "monash" "b0_monash.root").outFile
        = none ∧
      (simulateB0production (scripted none oneFailure) 5 42 "monash" "b0_monash.root").nextCalls
        = 0 := by
  rw [init_raised_no_output (scripted none oneFailure) 5 42 "monash" "b0_monash.root" rfl]
  exact ⟨rfl, rfl, rfl⟩

/-- C7: for a requested event count `nEvents ≥ 0`, the counter
`nNonFailedEvents` is at most `nEvents` after every iteration of the event
loop, whatever the attempts give, and so is the value stored in `hEvents` at
the end of the run. -/
theorem processed_le_requested {σ : Type} (pythia : Generator σ) (nEvents seed : Int)
    (tune outFileName : String) (hN : 0 ≤ nEvents) :
    (∀ (s0 : σ) (j : Nat), j ≤ nEvents.toNat →
        ((eventLoop pythia j (LoopState.start s0)).nNonFailedEvents : Int) ≤ nEvents) ∧
      (∀ (f : OutFile) (c : Nat),
        (simulateB0production pythia nEvents seed tune outFileName).outFile = some f →
        f.hEvents = some c → (c : Int) ≤ nEvents) := by
  have hloop : ∀ (s0 : σ) (j : Nat), j ≤ nEvents.toNat →
      ((eventLoop pythia j (LoopState.start s0)).nNonFailedEvents : Int) ≤ nEvents := by
    intro s0 j hj
    have h := (eventLoop_count pythia s0 j).1
    omega
  refine ⟨hloop, ?_⟩
  intro f c hf hc
  unfold simulateB0production at hf
  cases hi : pythia.init (readStrings seed tune) with
  | raised => simp [hi] at hf
  | returned ok s0 =>
    simp only [hi, Option.some.injEq] at hf
    subst hf
    simp only [Option.some.injEq] at hc
    subst hc
    exact hloop s0 _ (le_refl _)

/-- C7, evaluated: three events requested on the scripted generator, one
attempt raising, two counted. -/
theorem processed_le_requested_witness :
    (0 : Int) ≤ 3 ∧
      (simulateB0production (scripted (some true) oneFailure) 3 42 "monash" "b0_monash.root").outFile
        = some (sampleOutFile 2) ∧
      (sampleOutFile 2).hEvents = some 2 ∧ ((2 : Nat) : Int) ≤ 3 := by
  have hrun : (simulateB0production (scripted (some true) oneFailure) 3 42 "monash"
      "b0_monash.root").outFile = some (sampleOutFile 2) := by
    simp [simulateB0production, eventLoop, eventIteration, tryEvent, LoopState.start, scripted,
      oneFailure, fillTree, fillStep, sampleEvent, sampleOutFile, sampleRow, FloatVal.abs,
      FloatVal.gt, List.replicate, toFloat_zero, toFloat_two, toFloat_five]
    norm_num
  exact ⟨by decide, hrun, rfl,
    (processed_le_requested (scripted (some true) oneFailure) 3 42 "monash" "b0_monash.root"
      (by decide)).2 (sampleOutFile 2) 2 hrun rfl⟩

/-- C8 (as stated, refuted): a run of 0 events on a generator whose `init()`
raises writes nothing: the output file is not created. -/
theorem zero_events_counterexample :
    simulateB0production (scripted none []) 0 42 "monash" "b0_monash.root" =
      { readStrings := readStrings 42 "monash", nextCalls := 0, cerrLines := 0, progress := [],
        outFile := none, returned := false } := by
  rfl

/-- C8 (amended): when `init()` returns and 0 events are requested, `next()` is
never called, the ntuple written is empty, `hEvents` holds 0, the two other
counters hold the generator's values, all four objects are written and the
file is closed. -/
theorem zero_events_run {σ : Type} (pythia : Generator σ) (ok : Bool) (s0 : σ) (seed : Int)
    (tune outFileName : String)
    (hinit : pythia.init (readStrings seed tune) = InitResult.returned ok s0) :
    simulateB0production pythia 0 seed tune outFileName =
      { readStrings := readStrings seed tune, nextCalls := 0, cerrLines := 0, progress := [],
        outFile := some
          { name := outFileName
            treeB := some []
            hEvents := some 0
            hAcceptedEvents := some (pythia.nAccepted s0)
            hSigmaGen := some (pythia.sigmaGen s0)
            closed := true }
        returned := true } := by
  simp [simulateB0production, hinit, eventLoop, LoopState.start]

/-- C8 (amended), evaluated on the scripted generator. -/
theorem zero_events_run_witness :
    (scripted (some true) oneFailure).init (readStrings 42 "monash") =
        InitResult.returned true (oneFailure, 0) ∧
      (simulateB0production (scripted (some true) oneFailure) 0 42 "monash" "b0_monash.root").nextCalls
        = 0 ∧
      (simulateB0production (scripted (some true) oneFailure) 0 42 "monash" "b0_monash.root").outFile
        = some (sampleOutFile 0) := by
  rw [zero_events_run (scripted (some true) oneFailure) true (oneFailure, 0) 42 "monash"
    "b0_monash.root" rfl]
  exact ⟨rfl, rfl, rfl⟩

/-- C9: two runs with the same event count, seed and tune, on two generator
objects whose event stream is the same function of the settings they are
given, read the same settings, make the same calls, log the same and write
the same ntuple and the same three counters: the second run is the first one
with the other file name, whatever the two output file names are. -/
theorem same_inputs_same_results {σ τ : Type} (first : Generator σ) (second : Generator τ)
    (R : σ → τ → Prop) (hsame : SameStream first second R) (nEvents seed : Int)
    (tune outFileName1 outFileName2 : String) :
    simulateB0production second nEvents seed tune outFileName2 =
        Run.renamed outFileName2 (simulateB0production first nEvents seed tune outFileName1) ∧
      (simulateB0production first nEvents seed tune outFileName1).readStrings =
        (simulateB0production second nEvents seed tune outFileName2).readStrings ∧
      (simulateB0production first nEvents seed tune outFileName1).outFile.map OutFile.hEvents =
        (simulateB0production second nEvents seed tune outFileName2).outFile.map
          OutFile.hEvents ∧
      (simulateB0production first nEvents seed tune outFileName1).outFile.map
          OutFile.hAcceptedEvents =
        (simulateB0production second nEvents seed tune outFileName2).outFile.map
          OutFile.hAcceptedEvents ∧
      (simulateB0production first nEvents seed tune outFileName1).outFile.map OutFile.treeB =
        (simulateB0production second nEvents seed tune outFileName2).outFile.map
          OutFile.treeB := by
  have h := run_same first second R hsame nEvents seed tune outFileName1 outFileName2
  refine ⟨h, ?_, ?_, ?_, ?_⟩
  · rw [h]; rfl
  · rw [h, renamed_hEvents]
  · rw [h, renamed_hAcceptedEvents]
  · rw [h, renamed_treeB]

/-- C9, evaluated: three events with seed 42 and tune `monash` on the scripted
generator and on its second implementation, written to two files: both runs
count 2 events and 2 accepted events and write the same two rows. -/
theorem same_inputs_same_results_witness :
    SameStream (scripted (some true) oneFailure) (replay (some true) oneFailure)
        (replayRel oneFailure) ∧
      (simulateB0production (scripted (some true) oneFailure) 3 42 "monash"
        "b0_monash.root").outFile = some (sampleOutFile 2) ∧
      (simulateB0production (replay (some true) oneFailure) 3 42 "monash"
        "b0_second.root").outFile = some { sampleOutFile 2 with name := "b0_second.root" } := by
  have hsame := scripted_replay_same (some true) oneFailure
  have hrun : (simulateB0production (scripted (some true) oneFailure) 3 42 "monash"
      "b0_monash.root").outFile = some (sampleOutFile 2) := by
    simp [simulateB0production, eventLoop, eventIteration, tryEvent, LoopState.start, scripted,
      oneFailure, fillTree, fillStep, sampleEvent, sampleOutFile, sampleRow, FloatVal.abs,
      FloatVal.gt, List.replicate, toFloat_zero, toFloat_two, toFloat_five]
    norm_num
  refine ⟨hsame, hrun, ?_⟩
  rw [(same_inputs_same_results (scripted (some true) oneFailure)
    (replay (some true) oneFailure) (replayRel oneFailure) hsame 3 42 "monash" "b0_monash.root"
    "b0_second.root").1]
  simp [Run.renamed, hrun]

/-! ## The settings -/

/-- C5: each of the six tune names makes the run read, between the two groups
of baseline settings, a non-empty list of tune settings, none of which is a
baseline setting; the six lists, of 9, 15, 16, 16, 20 and 21 settings, are
pairwise distinct and so are the six sequences given to the generator; every
other name (such as `Monash` or the empty name) reads no tune setting, so
that the generator gets the baseline settings only and the run goes on as for
any tune: it ends early only when `init()` raises. -/
theorem tune_resolution {σ : Type} (pythia : Generator σ) (nEvents seed : Int)
    (outFileName : String) :
    tuneNames = ["monash", "mode0", "mode2", "mode3", "ropes", "srrc"] ∧
      tuneNames.map (fun tune => (tuneSettings tune).length) = [9, 15, 16, 16, 20, 21] ∧
      (∀ tune ∈ tuneNames,
        tuneSettings tune ≠ [] ∧
        (∀ s ∈ tuneSettings tune, s ∉ baselineSettings seed) ∧
        (simulateB0production pythia nEvents seed tune outFileName).readStrings =
          baselineHead ++ tuneSettings tune ++ baselineTail seed ∧
        (simulateB0production pythia nEvents seed tune outFileName).readStrings ≠
          baselineSettings seed) ∧
      tuneNames.Nodup ∧ (tuneNames.map tuneSettings).Nodup ∧
      (tuneNames.map (fun tune =>
        (simulateB0production pythia nEvents seed tune outFileName).readStrings)).Nodup ∧
      (∀ tune, tune ∉ tuneNames →
        tuneSettings tune = [] ∧
        readStrings seed tune = baselineSettings seed ∧
        (simulateB0production pythia nEvents seed tune outFileName).readStrings =
          baselineSettings seed ∧
        (simulateB0production pythia nEvents seed tune outFileName).returned =
          !(pythia.init (baselineSettings seed)).isRaised) ∧
      "Monash" ∉ tuneNames ∧ "" ∉ tuneNames := by
  refine ⟨rfl, by decide, ?_, by decide, tuneSettings_distinct, ?_, ?_, by decide, by decide⟩
  · intro tune ht
    have hne : tuneSettings tune ≠ [] := fun hnil => (tuneSettings_eq_nil_iff tune).1 hnil ht
    refine ⟨hne, fun s hs => tune_setting_not_baseline seed tune s hs, ?_, ?_⟩
    · rw [run_readStrings]; rfl
    · rw [run_readStrings]
      exact readStrings_ne_baseline seed tune hne
  · have hmap : tuneNames.map (fun tune =>
        (simulateB0production pythia nEvents seed tune outFileName).readStrings) =
        (tuneNames.map tuneSettings).map (fun l => baselineHead ++ l ++ baselineTail seed) := by
      rw [List.map_map]
      apply List.map_congr_left
      intro tune _
      rw [run_readStrings]
      rfl
    rw [hmap]
    apply List.Nodup.map _ tuneSettings_distinct
    intro l1 l2 h
    exact List.append_cancel_left (List.append_cancel_right h)
  · intro tune ht
    have hnil := (tuneSettings_eq_nil_iff tune).2 ht
    have hrs : readStrings seed tune = baselineSettings seed := by
      simp [readStrings, baselineSettings, hnil]
    refine ⟨hnil, hrs, ?_, ?_⟩
    · rw [run_readStrings, hrs]
    · rw [run_returned, hrs]

/-- C5, evaluated: a run with the tune `mode2` gives the generator a setting of
that tune, and the name `Monash` reads the baseline settings only. -/
theorem tune_resolution_witness :
    tuneSettings "mode2" ≠ [] ∧
      "ColourReconnection:timeDilationPar = 0.18" ∈
        (simulateB0production (scripted (some true) oneFailure) 3 42 "mode2"
          "b0_monash.root").readStrings ∧
      readStrings 42 "Monash" =
        [ "SoftQCD:inelastic = on", "Tune:pp = 14", "ParticleDecays:limitTau0 = on",
          "ParticleDecays:tau0Max = 10", "MiniStringFragmentation:tryAfterFailedFrag = on",
          "Random:setSeed = on", "Random:seed = 42", "Beams:eCM = 13600" ] := by
  have h := tune_resolution (scripted (some true) oneFailure) 3 42 "b0_monash.root"
  have h2 := h.2.2.1 "mode2" (by decide)
  refine ⟨h2.1, ?_, ?_⟩
  · rw [h2.2.2.1]
    decide
  · rw [(h.2.2.2.2.2.2.1 "Monash" (by decide)).2.1]
    decide

/-- C6: for every tune name and seed, the settings the generator is given hold
the eight baseline settings, and for each of them the last setting of the
sequence that assigns its key is the baseline setting itself: no tune setting
overrides a baseline key. -/
theorem baseline_always_applied {σ : Type} (pythia : Generator σ) (nEvents seed : Int)
    (tune outFileName : String) :
    (simulateB0production pythia nEvents seed tune outFileName).readStrings =
        readStrings seed tune ∧
      baselineSettings seed =
        [ "SoftQCD:inelastic = on", "Tune:pp = 14", "ParticleDecays:limitTau0 = on",
          "ParticleDecays:tau0Max = 10", "MiniStringFragmentation:tryAfterFailedFrag = on",
          "Random:setSeed = on", "Random:seed = " ++ toString seed, "Beams:eCM = 13600" ] ∧
      (∀ s ∈ baselineSettings seed,
        s ∈ readStrings seed tune ∧
        lastWrite (settingKey s) (readStrings seed tune) = some s) := by
  refine ⟨run_readStrings _ _ _ _ _, rfl, ?_⟩
  · intro s hs
    have hmem : s ∈ readStrings seed tune := by
      simp only [baselineSettings, readStrings, List.mem_append] at hs ⊢
      rcases hs with hs | hs
      · exact Or.inl (Or.inl hs)
      · exact Or.inr hs
    exact ⟨hmem, (lastWrite_eq_some _ _ (readStrings_keys_nodup seed tune) s).2 ⟨hmem, rfl⟩⟩

/-- C6, evaluated for the tune `ropes` and seed -7: the seed setting is among
the baseline settings, it is read, and it is the last setting that assigns
`Random:seed`. -/
theorem baseline_always_applied_witness :
    "Random:seed = -7" ∈ baselineSettings (-7) ∧
      "Random:seed = -7" ∈ readStrings (-7) "ropes" ∧
      lastWrite (settingKey "Random:seed = -7") (readStrings (-7) "ropes") =
        some "Random:seed = -7" :=
  ⟨by decide,
    (baseline_always_applied (scripted (some true) oneFailure) 3 (-7) "ropes"
      "b0_monash.root").2.2 "Random:seed = -7" (by decide)⟩

/-- C10: for every tune name and seed no key is assigned twice in the sequence
of settings given to the generator, and the configuration that last-write-wins
yields is the same for every order in which these settings are applied. -/
theorem setting_keys_unique (seed : Int) (tune : String) :
    ((readStrings seed tune).map settingKey).Nodup ∧
      (∀ reordered : List String, reordered.Perm (readStrings seed tune) →
        ∀ key, lastWrite key reordered = lastWrite key (readStrings seed tune)) :=
  ⟨readStrings_keys_nodup seed tune,
    fun reordered hp key => lastWrite_perm key _ reordered (readStrings_keys_nodup seed tune) hp⟩

/-- C10, evaluated: reading the settings of the tune `monash` in reverse
order assigns the same value to `StringZ:aLund`. -/
theorem setting_keys_unique_witness :
    lastWrite "StringZ:aLund" (readStrings 42 "monash").reverse =
      lastWrite "StringZ:aLund" (readStrings 42 "monash") :=
  (setting_keys_unique 42 "monash").2 _ (List.reverse_perm _) "StringZ:aLund"

end B0Sim
